import Mathlib

/-!
Shallow embedding of `src/lib/writer.ts` from the `remove-forever` repository
(a secure file-deletion tool for Deno).

Modelling conventions:
* A byte buffer is a `List Nat`; every value stored into a `Uint8Array` is
  reduced modulo 256, mirroring JavaScript's ToUint8 coercion on element
  assignment and on `fill`.
* The file on disk is a `List Nat` (its current content).  `Deno.copy`
  repeatedly fills a single reusable buffer of fixed capacity `c`
  (32 KiB in the real runtime; we keep `c` abstract) by calling the
  reader, and writes the first `length` bytes of each read to the file.
* The SHA-256 accumulator (`hash.Sha256`) is modelled by the list of bytes
  fed to it; two accumulators have equal `hex()` digests exactly when they
  were fed equal byte sequences (SHA-256 is deterministic, and we treat it
  as collision-free for the inputs compared here).
* Randomness (`crypto.getRandomValues`, `Math.random`, `uuid.v4.generate`)
  is modelled by explicit parameters: a stream `rng : Nat → Nat` indexed by
  chunk number, a rational draw `u` for `Math.random()`, and a supplied
  fresh name for the uuid.
* Mutation of the `fileData` record is modelled by returning the updated
  record; thrown/returned errors are modelled as `Option String` carrying
  the source's message.
-/

namespace RemoveForever

/-- The `FileData` interface (writer.ts lines 253-258): the mutable target
record.  `checksum` is the byte sequence fed to the `hash.Sha256`
accumulator so far. -/
structure FileData where
  path : String
  size : Nat
  checksum : List Nat
  verifyChecksum : Bool
deriving DecidableEq, Repr

/-- The `DirData` interface (writer.ts lines 260-262). -/
structure DirData where
  path : String
deriving DecidableEq, Repr

/-- The hidden mutable state on the pattern classes: `Byte.write` and
`ByteArray.write` overwrite the static `getValues` method of their own
class (`this.getValues = function ...`, lines 140 and 152), and that
assignment persists on the class object after the call returns.  The other
pattern classes never assign, so only these two fields exist. -/
structure ClassState where
  byteFill : Option Nat
  byteArrayFill : Option (List Nat)
deriving DecidableEq, Repr

namespace FileWriter

/-- One pass of the reader loop driven by `Deno.copy`
(writer.ts lines 33-52).  Each read computes
`length = min(p.byteLength, size)`, decrements the local `size` copy,
stops when `length` is 0, and otherwise has `getValues` fill the whole
buffer and hands the first `length` bytes to the copier.
`g k` is the buffer content produced by `getValues` on the k-th chunk
(length `c` by construction for every pattern class).

Each iteration with a nonzero `length` consumes at least one byte of
`size`, so `size` itself bounds the number of iterations; the `fuel`
argument makes the recursion structural and is instantiated with the
initial `size` in `writeLoop` below. -/
def writeLoopF (g : Nat → List Nat) (c : Nat) : Nat → Nat → Nat → List Nat
  | 0, _, _ => []
  | fuel + 1, k, size =>
    let len := min c size
    if len = 0 then []
    else (g k).take len ++ writeLoopF g c fuel (k + 1) (size - len)

/-- The bytes written to the file by the reader loop, starting at chunk
index `k` with `size` bytes remaining. -/
def writeLoop (g : Nat → List Nat) (c : Nat) (k : Nat) (size : Nat) : List Nat :=
  writeLoopF g c size k size

/-- `FileWriter.verify` (writer.ts lines 69-83): re-opens the path, streams
the current file content through a fresh `Sha256` accumulator, and compares
hex digests with `fileData.checksum`; on mismatch it RETURNS (does not
throw) `new Error("Invalid checksum")`.  It assigns no field of `fileData`;
the record component of the result is the statement-by-statement
translation of the body, which only reads. -/
def verify (fd : FileData) (file : List Nat) : FileData × Option String :=
  let checksum := file
  if fd.checksum ≠ checksum then (fd, some "Invalid checksum") else (fd, none)

/-- `FileWriter.verifyNext` (writer.ts lines 63-66): sets the flag and
resets the accumulator. -/
def verifyNext (fd : FileData) : FileData :=
  { fd with verifyChecksum := true, checksum := [] }

/-- `FileWriter.write` (writer.ts lines 28-59), parameterized by the
environment.  `size` is destructured into a local (`let { size } =
fileData`), so the record's `size` field is never assigned.  Each chunk is
fed to `fileData.checksum` (its first `length` bytes, `p.slice(0, length)`)
exactly when `fileData.verifyChecksum` holds; cumulatively the accumulator
receives the concatenation of the written chunks.  The file is opened
without truncation and written from offset 0, so the new content is the
written bytes followed by any remainder of the old content.  At the end,
if the flag is set it is cleared and `verify` is invoked with its result
DISCARDED (line 57: `await this.verify(fileData);` ignores the returned
error); `write` itself returns normally, which the last component `none`
records as the caller-visible error.

`tamper` models modification of the file by the environment between the
last chunk and the automatic verification pass (verify re-reads the path
from disk, so a concurrent writer is observable there); it is `id` when
nothing interferes. -/
def writeT (g : Nat → List Nat) (c : Nat) (tamper : List Nat → List Nat)
    (fd : FileData) (file : List Nat) : FileData × List Nat × Option String :=
  let written := writeLoop g c 0 fd.size
  let file1 := written ++ file.drop written.length
  let checksum1 := if fd.verifyChecksum then fd.checksum ++ written else fd.checksum
  let fd1 : FileData := { fd with checksum := checksum1 }
  if fd1.verifyChecksum then
    let fd2 : FileData := { fd1 with verifyChecksum := false }
    let file2 := tamper file1
    let _ := (verify fd2 file2).2
    (fd2, file2, none)
  else (fd1, file1, none)

/-- `FileWriter.write` with no external interference. -/
def write (g : Nat → List Nat) (c : Nat) (fd : FileData) (file : List Nat) :
    FileData × List Nat × Option String :=
  writeT g c id fd file

end FileWriter

/-- Buffer produced by `Zero.getValues` (writer.ts line 115):
`p.fill(0x000000)`. -/
def Zero.fillBuf (c : Nat) : List Nat :=
  List.replicate c (0x000000 % 256)

/-- Buffer produced by `One.getValues` (writer.ts line 127):
`p.fill(0xFFFFFF)`; `Uint8Array` stores the value modulo 256, i.e. 0xFF. -/
def One.fillBuf (c : Nat) : List Nat :=
  List.replicate c (0xFFFFFF % 256)

/-- Buffer produced by the `getValues` closure installed by `Byte.write`
(writer.ts lines 140-142): `p.fill(byte)`. -/
def Byte.fillBuf (b : Nat) (c : Nat) : List Nat :=
  List.replicate c (b % 256)

/-- Buffer produced by the `getValues` closure installed by
`ByteArray.write` (writer.ts lines 152-156): `p[i] = byteArray[i % length]`
for every buffer index `i < c` — the index is the offset WITHIN the chunk
buffer.  When `byteArray` is empty, JavaScript evaluates `i % 0` to `NaN`
and `byteArray[NaN]` to `undefined`, which the `Uint8Array` element
assignment coerces to 0; `List.getD _ _ 0` yields the same 0 (in Lean
`i % 0 = i`, an out-of-range index for the empty list). -/
def ByteArray.fillBuf (pat : List Nat) (c : Nat) : List Nat :=
  (List.range c).map (fun i => pat.getD (i % pat.length) 0 % 256)

/-- Buffer produced by `RandomByte.getValues` (writer.ts lines 100-104):
on EVERY chunk it draws one fresh random byte (`crypto.getRandomValues` on
a 1-byte array, modelled by `rng k` for the k-th chunk) and fills the whole
buffer with it. -/
def RandomByte.fillBuf (rng : Nat → Nat) (k : Nat) (c : Nat) : List Nat :=
  List.replicate c (rng k % 256)

/-- `Zero.write` (writer.ts lines 118-121): delegates to the base `write`
with `Zero.getValues`; the class state is untouched. -/
def Zero.write (c : Nat) (st : ClassState) (fd : FileData) (file : List Nat) :
    ClassState × (FileData × List Nat × Option String) :=
  (st, FileWriter.write (fun _ => Zero.fillBuf c) c fd file)

/-- `One.write` (writer.ts lines 130-133). -/
def One.write (c : Nat) (st : ClassState) (fd : FileData) (file : List Nat) :
    ClassState × (FileData × List Nat × Option String) :=
  (st, FileWriter.write (fun _ => One.fillBuf c) c fd file)

/-- `Byte.write` (writer.ts lines 138-144): assigns
`this.getValues = function (p) { p.fill(byte) }` on the `Byte` class (the
assignment persists in the class state), then calls the base `write`,
which reads the just-installed closure. -/
def Byte.write (b : Nat) (c : Nat) (st : ClassState) (fd : FileData) (file : List Nat) :
    ClassState × (FileData × List Nat × Option String) :=
  let st1 : ClassState := { st with byteFill := some b }
  (st1, FileWriter.write (fun _ => Byte.fillBuf b c) c fd file)

/-- `ByteArray.write` (writer.ts lines 149-158): assigns the cycling
closure over its `byteArray` argument on the `ByteArray` class, then calls
the base `write`.  No validation of `byteArray` is performed. -/
def ByteArray.write (pat : List Nat) (c : Nat) (st : ClassState) (fd : FileData)
    (file : List Nat) : ClassState × (FileData × List Nat × Option String) :=
  let st1 : ClassState := { st with byteArrayFill := some pat }
  (st1, FileWriter.write (fun _ => ByteArray.fillBuf pat c) c fd file)

/-- `RandomByte.write` (writer.ts lines 106-109): delegates to the base
`write` with `RandomByte.getValues`; draws `rng k` on the k-th chunk. -/
def RandomByte.write (rng : Nat → Nat) (c : Nat) (fd : FileData) (file : List Nat) :
    FileData × List Nat × Option String :=
  FileWriter.write (fun k => RandomByte.fillBuf rng k c) c fd file

/-- A call to one of the deterministic pattern classes' `write` entry
points (the `Random`/`RandomByte` classes never assign `getValues`, so a
preceding call to them leaves the class state unchanged; quantifying over
an arbitrary incoming `ClassState` therefore covers arbitrary preceding
writes of any pattern). -/
inductive PatternCall where
  | zero
  | one
  | byte (b : Nat)
  | byteArray (pat : List Nat)
deriving DecidableEq, Repr

/-- Dispatch a deterministic pattern-class `write` call against the shared
class state. -/
def runCall (call : PatternCall) (c : Nat) (st : ClassState) (fd : FileData)
    (file : List Nat) : ClassState × (FileData × List Nat × Option String) :=
  match call with
  | .zero => Zero.write c st fd file
  | .one => One.write c st fd file
  | .byte b => Byte.write b c st fd file
  | .byteArray pat => ByteArray.write pat c st fd file

/-- The filesystem visible to `rename`/`truncate`: an association of paths
to file contents. -/
def FileSystem := List (String × List Nat)

/-- Path lookup. -/
def fsLookup (fs : FileSystem) (p : String) : Option (List Nat) :=
  (List.find? (fun e => e.1 == p) fs).map (fun e => e.2)

/-- `Deno.rename(oldpath, newpath)` maps to the platform rename
(`rename(2)` on Unix): it fails when `oldpath` does not exist and
otherwise moves the object, SILENTLY REPLACING any existing object at
`newpath`; no error is raised for an existing destination. -/
def fsRename (fs : FileSystem) (old new : String) : Option FileSystem :=
  match fsLookup fs old with
  | none => none
  | some v => some ((new, v) :: List.filter (fun e => !(e.1 == old) && !(e.1 == new)) fs)

/-- `path.dirname` from the Deno std path library, for plain
slash-separated paths: everything before the last separator
(`"."` when there is none). -/
def dirname (p : String) : String :=
  if p.toList.contains '/' then
    String.mk (((p.toList.reverse.dropWhile (fun ch => ch != '/')).drop 1).reverse)
  else "."

/-- `path.join` from the Deno std path library, for a directory and a
plain file name. -/
def joinPath (a b : String) : String := a ++ "/" ++ b

namespace FileProperties

/-- `FileProperties.rename` (writer.ts lines 164-170): generates a fresh
random name (`uuid.v4.generate()`, supplied here as `newName`), computes
`newPath = path.join(path.dirname(fileData.path), newName)`, performs
`Deno.rename`, and on success assigns `fileData.path = newPath`.  There is
no existence check on the destination and no conflict error: the platform
rename replaces an existing destination. -/
def rename (newName : String) (fd : FileData) (fs : FileSystem) :
    FileData × FileSystem × Option String :=
  let newPath := joinPath (dirname fd.path) newName
  match fsRename fs fd.path newPath with
  | none => (fd, fs, some "rename failed")
  | some fs1 => ({ fd with path := newPath }, fs1, none)

/-- `FileProperties.truncate` (writer.ts lines 173-178):
`newSize = Math.floor((0.25 + Math.random() * 0.5) * fileData.size)` with
`u = Math.random() ∈ [0, 1)` modelled as a rational, then
`Deno.truncate(path, newSize)` and `fileData.size = newSize`. -/
def truncate (u : ℚ) (fd : FileData) : FileData :=
  let newSize := ⌊(1/4 + u * (1/2)) * (fd.size : ℚ)⌋₊
  { fd with size := newSize }

end FileProperties

/-- `DirectoryProperties.rename` (writer.ts lines 218-224): identical to
`FileProperties.rename` but on a `DirData` record. -/
def DirectoryProperties.rename (newName : String) (dd : DirData) (fs : FileSystem) :
    DirData × FileSystem × Option String :=
  let newPath := joinPath (dirname dd.path) newName
  match fsRename fs dd.path newPath with
  | none => (dd, fs, some "rename failed")
  | some fs1 => ({ dd with path := newPath }, fs1, none)

/-! ### Core lemmas about the reader loop -/

lemma writeLoopF_zero (g : Nat → List Nat) (c k size : Nat) :
    FileWriter.writeLoopF g c 0 k size = [] := rfl

lemma writeLoopF_succ (g : Nat → List Nat) (c fuel k size : Nat) :
    FileWriter.writeLoopF g c (fuel + 1) k size =
      if min c size = 0 then []
      else (g k).take (min c size) ++
        FileWriter.writeLoopF g c fuel (k + 1) (size - min c size) := rfl

lemma writeLoopF_length (g : Nat → List Nat) (c : Nat) (hg : ∀ j, (g j).length = c)
    (hc : 0 < c) :
    ∀ fuel size k, size ≤ fuel → (FileWriter.writeLoopF g c fuel k size).length = size := by
  intro fuel
  induction fuel with
  | zero =>
    intro size k hs
    have hz : size = 0 := Nat.le_zero.mp hs
    subst hz
    rfl
  | succ fuel ih =>
    intro size k hs
    rw [writeLoopF_succ]
    by_cases h0 : min c size = 0
    · have hz : size = 0 := by omega
      subst hz
      simp
    · rw [if_neg h0]
      rw [List.length_append, List.length_take, hg k,
        ih (size - min c size) (k + 1) (by omega)]
      omega

lemma writeLoopF_getElem (g : Nat → List Nat) (c : Nat) (hg : ∀ j, (g j).length = c)
    (hc : 0 < c) :
    ∀ fuel size k i, size ≤ fuel → i < size →
      (FileWriter.writeLoopF g c fuel k size)[i]? = (g (k + i / c))[i % c]? := by
  intro fuel
  induction fuel with
  | zero =>
    intro size k i hs hi
    omega
  | succ fuel ih =>
    intro size k i hs hi
    have h0 : ¬ min c size = 0 := by omega
    rw [writeLoopF_succ, if_neg h0]
    have htake : ((g k).take (min c size)).length = min c size := by
      rw [List.length_take, hg k]
      omega
    by_cases hcase : i < min c size
    · rw [List.getElem?_append_left (by omega : i < ((g k).take (min c size)).length)]
      rw [List.getElem?_take_of_lt hcase]
      have h1 : i / c = 0 := Nat.div_eq_of_lt (by omega)
      have h2 : i % c = i := Nat.mod_eq_of_lt (by omega)
      rw [h1, h2, Nat.add_zero]
    · push_neg at hcase
      have hlc : min c size = c := by omega
      rw [List.getElem?_append_right (by omega : ((g k).take (min c size)).length ≤ i),
        htake, hlc]
      have key := ih (size - c) (k + 1) (i - c) (by omega) (by omega)
      rw [key]
      have hdiv : i / c = (i - c) / c + 1 := Nat.div_eq_sub_div hc (by omega)
      have hmod : i % c = (i - c) % c := Nat.mod_eq_sub_mod (by omega)
      rw [hdiv, hmod]
      have harg : k + 1 + (i - c) / c = k + ((i - c) / c + 1) := by ring
      rw [harg]

lemma writeLoop_length (g : Nat → List Nat) (c : Nat) (hg : ∀ j, (g j).length = c)
    (hc : 0 < c) (k size : Nat) : (FileWriter.writeLoop g c k size).length = size :=
  writeLoopF_length g c hg hc size size k le_rfl

lemma writeLoop_getElem (g : Nat → List Nat) (c : Nat) (hg : ∀ j, (g j).length = c)
    (hc : 0 < c) (k size i : Nat) (hi : i < size) :
    (FileWriter.writeLoop g c k size)[i]? = (g (k + i / c))[i % c]? :=
  writeLoopF_getElem g c hg hc size size k i le_rfl hi

lemma writeT_eq (g : Nat → List Nat) (c : Nat) (tam : List Nat → List Nat)
    (fd : FileData) (file : List Nat) :
    FileWriter.writeT g c tam fd file =
      if fd.verifyChecksum then
        ({ fd with
            checksum := fd.checksum ++ FileWriter.writeLoop g c 0 fd.size,
            verifyChecksum := false },
          tam (FileWriter.writeLoop g c 0 fd.size ++
            file.drop (FileWriter.writeLoop g c 0 fd.size).length),
          none)
      else
        (fd,
          FileWriter.writeLoop g c 0 fd.size ++
            file.drop (FileWriter.writeLoop g c 0 fd.size).length,
          none) := by
  obtain ⟨p, s, cs, v⟩ := fd
  by_cases h : v <;> simp [FileWriter.writeT, h]

lemma write_eq (g : Nat → List Nat) (c : Nat) (fd : FileData) (file : List Nat) :
    FileWriter.write g c fd file =
      if fd.verifyChecksum then
        ({ fd with
            checksum := fd.checksum ++ FileWriter.writeLoop g c 0 fd.size,
            verifyChecksum := false },
          FileWriter.writeLoop g c 0 fd.size ++
            file.drop (FileWriter.writeLoop g c 0 fd.size).length,
          none)
      else
        (fd,
          FileWriter.writeLoop g c 0 fd.size ++
            file.drop (FileWriter.writeLoop g c 0 fd.size).length,
          none) := by
  rw [FileWriter.write, writeT_eq]
  by_cases h : fd.verifyChecksum <;> simp [h]

lemma write_file_eq (g : Nat → List Nat) (c : Nat) (fd : FileData) (file : List Nat) :
    (FileWriter.write g c fd file).2.1 =
      FileWriter.writeLoop g c 0 fd.size ++
        file.drop (FileWriter.writeLoop g c 0 fd.size).length := by
  rw [write_eq]
  by_cases h : fd.verifyChecksum <;> simp [h]

lemma write_size_eq (g : Nat → List Nat) (c : Nat) (fd : FileData) (file : List Nat) :
    (FileWriter.write g c fd file).1.size = fd.size := by
  rw [write_eq]
  by_cases h : fd.verifyChecksum <;> simp [h]

lemma byteArrayFillBuf_length (pat : List Nat) (c : Nat) :
    (ByteArray.fillBuf pat c).length = c := by
  simp [ByteArray.fillBuf]

lemma byteArrayFillBuf_getElem (pat : List Nat) (c i : Nat) (hi : i < c) :
    (ByteArray.fillBuf pat c)[i]? = some (pat.getD (i % pat.length) 0 % 256) := by
  simp [ByteArray.fillBuf, List.getElem?_range hi]

lemma randomByteFillBuf_length (rng : Nat → Nat) (k c : Nat) :
    (RandomByte.fillBuf rng k c).length = c := by
  simp [RandomByte.fillBuf]

lemma randomByteFillBuf_getElem (rng : Nat → Nat) (k c i : Nat) (hi : i < c) :
    (RandomByte.fillBuf rng k c)[i]? = some (rng k % 256) := by
  simp [RandomByte.fillBuf, List.getElem?_replicate_of_lt hi]

lemma getD_lt_256 (pat : List Nat) (j : Nat) (hj : j < pat.length)
    (hbytes : ∀ b ∈ pat, b < 256) : pat.getD j 0 < 256 := by
  have h1 : pat.getD j 0 = pat[j] := by
    simp [List.getD_eq_getElem?_getD, List.getElem?_eq_getElem hj]
  rw [h1]
  exact hbytes _ (List.getElem_mem hj)

/-! ### Claim theorems -/

/-- Claim C1 (counterexample): `ByteArray([1,2,3]).write` on a 7-byte file
does NOT yield `[1,2,3,1,2,3,1]` for every chunking — with a buffer
capacity of 4 bytes the cycling index restarts at the chunk boundary and
the file becomes `[1,2,3,1,1,2,3]`. -/
theorem byteArray_write_not_cumulative :
    (ByteArray.write [1, 2, 3] 4 ⟨none, none⟩ ⟨"f", 7, [], false⟩
        (List.replicate 7 9)).2.2.1 = [1, 2, 3, 1, 1, 2, 3] ∧
      ([1, 2, 3, 1, 1, 2, 3] : List Nat) ≠ [1, 2, 3, 1, 2, 3, 1] := by
  decide

/-- Claim C1 (amended): after `ByteArray.write` with non-empty `pat`
(entries in 0..255) on an `N`-byte file streamed through chunks of
capacity `c`, byte `i` of the file equals `pat[(i mod c) mod length pat]`:
the cycling index is the offset within the chunk, so it restarts at each
chunk boundary; when the whole file fits in one chunk (`N ≤ c`, as with a
7-byte file and the runtime's 32 KiB buffer) this is `pat[i mod length
pat]` and `[1,2,3]` on 7 bytes gives `[1,2,3,1,2,3,1]`. -/
theorem byteArray_write_content (pat : List Nat) (c : Nat) (st : ClassState)
    (fd : FileData) (file : List Nat) (i : Nat)
    (hpat : pat ≠ []) (hc : 0 < c) (hi : i < fd.size)
    (hbytes : ∀ b ∈ pat, b < 256) :
    ((ByteArray.write pat c st fd file).2.2.1)[i]? =
      some (pat.getD ((i % c) % pat.length) 0) := by
  have hg : ∀ j, ((fun _ : Nat => ByteArray.fillBuf pat c) j).length = c :=
    fun _ => byteArrayFillBuf_length pat c
  have hlen : (FileWriter.writeLoop (fun _ => ByteArray.fillBuf pat c) c 0 fd.size).length
      = fd.size := writeLoop_length _ c hg hc 0 fd.size
  have hfile : (ByteArray.write pat c st fd file).2.2.1 =
      FileWriter.writeLoop (fun _ => ByteArray.fillBuf pat c) c 0 fd.size ++
        file.drop (FileWriter.writeLoop (fun _ => ByteArray.fillBuf pat c) c 0 fd.size).length := by
    rw [ByteArray.write]
    exact write_file_eq _ c fd file
  rw [hfile, List.getElem?_append_left (by omega),
    writeLoop_getElem _ c hg hc 0 fd.size i hi,
    byteArrayFillBuf_getElem pat c (i % c) (Nat.mod_lt i hc)]
  have hj : (i % c) % pat.length < pat.length :=
    Nat.mod_lt _ (List.length_pos.mpr hpat)
  rw [Nat.mod_eq_of_lt (getD_lt_256 pat _ hj hbytes)]

/-- Claim C1 (witness): the amended statement at `pat = [1,2,3]`, `c = 4`,
a 7-byte file, index 4: the byte is `pat[(4 mod 4) mod 3] = 1`. -/
theorem byteArray_write_content_witness :
    ((ByteArray.write [1, 2, 3] 4 ⟨none, none⟩ ⟨"f", 7, [], false⟩
        (List.replicate 7 9)).2.2.1)[4]? =
      some (([1, 2, 3] : List Nat).getD ((4 % 4) % 3) 0) :=
  byteArray_write_content [1, 2, 3] 4 ⟨none, none⟩ ⟨"f", 7, [], false⟩
    (List.replicate 7 9) 4 (by decide) (by decide) (by decide) (by decide)

/-- Claim C2 (counterexample): after a successful `write` on a 5-byte
target, the record's `size` field is still 5, not 0 — `write` destructures
`size` into a local variable and never assigns the field. -/
theorem write_size_field_not_zero :
    (FileWriter.write (fun _ => Zero.fillBuf 4) 4 ⟨"f", 5, [], false⟩
        (List.replicate 5 9)).1.size = 5 ∧ (5 : Nat) ≠ 0 := by
  decide

/-- Claim C2 (amended): `write` leaves the record's `size` field unchanged
(it consumes a local copy of it); what does reach 0 is the local remaining
counter, i.e. the loop writes exactly `size` bytes. -/
theorem write_keeps_size_field (g : Nat → List Nat) (c : Nat) (fd : FileData)
    (file : List Nat) (hg : ∀ j, (g j).length = c) (hc : 0 < c) :
    (FileWriter.write g c fd file).1.size = fd.size ∧
      (FileWriter.writeLoop g c 0 fd.size).length = fd.size :=
  ⟨write_size_eq g c fd file, writeLoop_length g c hg hc 0 fd.size⟩

/-- Claim C2 (witness): the amended statement on a 5-byte target with a
4-byte buffer and the `Zero` fill. -/
theorem write_keeps_size_field_witness :
    (FileWriter.write (fun _ => Zero.fillBuf 4) 4 ⟨"f", 5, [], false⟩
        (List.replicate 5 9)).1.size = (5 : Nat) ∧
      (FileWriter.writeLoop (fun _ => Zero.fillBuf 4) 4 0 5).length = 5 :=
  write_keeps_size_field (fun _ => Zero.fillBuf 4) 4 ⟨"f", 5, [], false⟩
    (List.replicate 5 9) (fun _ => rfl) (by decide)

/-- Claim C3 (counterexample): `RandomByte.write` on a 5-byte file with a
3-byte buffer draws a fresh random byte per chunk: with the random stream
`k ↦ k` the file becomes `[0,0,0,1,1]`, whose bytes are not all equal. -/
theorem randomByte_write_two_draws :
    (RandomByte.write (fun k => k) 3 ⟨"f", 5, [], false⟩
        (List.replicate 5 9)).2.1 = [0, 0, 0, 1, 1] ∧
      ((RandomByte.write (fun k => k) 3 ⟨"f", 5, [], false⟩
        (List.replicate 5 9)).2.1)[0]? ≠
      ((RandomByte.write (fun k => k) 3 ⟨"f", 5, [], false⟩
        (List.replicate 5 9)).2.1)[3]? := by
  decide

/-- Claim C3 (amended): `RandomByte.write` draws one random byte PER CHUNK
(`rng k` on the k-th chunk) and fills that chunk with it: byte `i` of the
file equals `rng (i / c) mod 256`.  All bytes within one chunk agree, and
when the file fits in a single chunk (`N ≤ c`) all `N` bytes are equal. -/
theorem randomByte_write_content (rng : Nat → Nat) (c : Nat) (fd : FileData)
    (file : List Nat) (i : Nat) (hc : 0 < c) (hi : i < fd.size) :
    ((RandomByte.write rng c fd file).2.1)[i]? = some (rng (i / c) % 256) := by
  have hg : ∀ j, ((fun k => RandomByte.fillBuf rng k c) j).length = c :=
    fun j => randomByteFillBuf_length rng j c
  have hlen : (FileWriter.writeLoop (fun k => RandomByte.fillBuf rng k c) c 0 fd.size).length
      = fd.size := writeLoop_length _ c hg hc 0 fd.size
  rw [RandomByte.write, write_file_eq, List.getElem?_append_left (by omega),
    writeLoop_getElem _ c hg hc 0 fd.size i hi,
    randomByteFillBuf_getElem rng _ c (i % c) (Nat.mod_lt i hc), Nat.zero_add]

/-- Claim C3 (witness): the amended statement at stream `k ↦ k`, `c = 3`,
5-byte file, index 3: the byte is `rng (3 / 3) mod 256 = 1`. -/
theorem randomByte_write_content_witness :
    ((RandomByte.write (fun k => k) 3 ⟨"f", 5, [], false⟩
        (List.replicate 5 9)).2.1)[3]? = some ((3 / 3) % 256) :=
  randomByte_write_content (fun k => k) 3 ⟨"f", 5, [], false⟩
    (List.replicate 5 9) 3 (by decide) (by decide)

/-- Claim C5 (counterexample): `ByteArray.write` with the empty pattern on
a 3-byte target raises no error and overwrites the file with `[0,0,0]` —
there is no validation and no `InvalidPatternError` anywhere in the code
(`byteArray[i % 0]` is `undefined`, stored as 0 by the `Uint8Array`). -/
theorem byteArray_write_empty_no_error :
    (ByteArray.write [] 4 ⟨none, none⟩ ⟨"f", 3, [], false⟩
        (List.replicate 3 9)).2.2.2 = none ∧
      (ByteArray.write [] 4 ⟨none, none⟩ ⟨"f", 3, [], false⟩
        (List.replicate 3 9)).2.2.1 = [0, 0, 0] := by
  decide

/-- Claim C5 (amended): for every target, `ByteArray.write` with an empty
pattern array succeeds (returns no error) and fills the file with 0x00
bytes. -/
theorem byteArray_write_empty_pattern (c : Nat) (st : ClassState) (fd : FileData)
    (file : List Nat) (i : Nat) (hc : 0 < c) (hi : i < fd.size) :
    (ByteArray.write [] c st fd file).2.2.2 = none ∧
      ((ByteArray.write [] c st fd file).2.2.1)[i]? = some 0 := by
  have hg : ∀ j, ((fun _ : Nat => ByteArray.fillBuf [] c) j).length = c :=
    fun _ => byteArrayFillBuf_length [] c
  have hlen : (FileWriter.writeLoop (fun _ => ByteArray.fillBuf [] c) c 0 fd.size).length
      = fd.size := writeLoop_length _ c hg hc 0 fd.size
  constructor
  · rw [ByteArray.write, write_eq]
    by_cases h : fd.verifyChecksum <;> simp [h]
  · rw [ByteArray.write]
    rw [write_file_eq, List.getElem?_append_left (by omega),
      writeLoop_getElem _ c hg hc 0 fd.size i hi,
      byteArrayFillBuf_getElem [] c (i % c) (Nat.mod_lt i hc)]
    simp

/-- Claim C5 (witness): the amended statement on a 3-byte target with a
4-byte buffer, index 1. -/
theorem byteArray_write_empty_pattern_witness :
    (ByteArray.write [] 4 ⟨none, none⟩ ⟨"f", 3, [], false⟩
        (List.replicate 3 9)).2.2.2 = none ∧
      ((ByteArray.write [] 4 ⟨none, none⟩ ⟨"f", 3, [], false⟩
        (List.replicate 3 9)).2.2.1)[1]? = some 0 :=
  byteArray_write_empty_pattern 4 ⟨none, none⟩ ⟨"f", 3, [], false⟩
    (List.replicate 3 9) 1 (by decide) (by decide)

/-- Claim C4 (code bug): on a 1-byte target with verification requested,
when the environment replaces the file content (here with `[9]`) between
the last written chunk (`[0]`) and the automatic verification pass, the
recomputed digest differs from the captured one — `verify` on the returned
record and file reports `Invalid checksum` — yet `write` returns no error
to its caller: line 57 (`await this.verify(fileData);`) discards the
`Error` that `verify` returns, so the auto-verification path silently
swallows the mismatch. -/
theorem write_discards_verify_error :
    (FileWriter.writeT (fun _ => Zero.fillBuf 4) 4 (fun _ => [9])
        (FileWriter.verifyNext ⟨"f", 1, [], false⟩) [7]).2.2 = none ∧
      (FileWriter.verify
        (FileWriter.writeT (fun _ => Zero.fillBuf 4) 4 (fun _ => [9])
          (FileWriter.verifyNext ⟨"f", 1, [], false⟩) [7]).1
        (FileWriter.writeT (fun _ => Zero.fillBuf 4) 4 (fun _ => [9])
          (FileWriter.verifyNext ⟨"f", 1, [], false⟩) [7]).2.1).2 =
      some "Invalid checksum" := by
  constructor
  · rfl
  · rfl

/-- Claim C6 (counterexample): `truncate` on a 2-byte target with the
random draw `u = 0` (so `r = 0.25`) computes
`newSize = floor(0.25 * 2) = floor(0.5) = 0`, violating the claimed lower
bound `0.25 * originalSize ≤ newSize`. -/
theorem truncate_below_quarter :
    (FileProperties.truncate 0 ⟨"f", 2, [], false⟩).size = 0 ∧
      ¬ ((1 / 4 : ℚ) * ((2 : Nat) : ℚ) ≤
        ((FileProperties.truncate 0 ⟨"f", 2, [], false⟩).size : ℚ)) := by
  have h0 : (FileProperties.truncate 0 ⟨"f", 2, [], false⟩).size = 0 := by
    show ⌊((1:ℚ)/4 + 0 * (1/2)) * ((2 : Nat) : ℚ)⌋₊ = 0
    norm_num
  refine ⟨h0, ?_⟩
  rw [h0]
  norm_num

/-- Claim C6 (amended): for a target of size > 0 and a draw
`u ∈ [0, 1)` of `Math.random()` (so the factor `r = 0.25 + 0.5 u` lies in
`[0.25, 0.75)`), truncate sets the record's size to
`newSize = floor(r * size)`, and `floor(0.25 * size) ≤ newSize <
0.75 * size`; the claimed lower bound `0.25 * size ≤ newSize` only fails
by the rounding of `floor` (it holds whenever `4 ∣ size`). -/
theorem truncate_bounds (u : ℚ) (fd : FileData) (hu0 : 0 ≤ u) (hu1 : u < 1)
    (hsize : 0 < fd.size) :
    ⌊(1 / 4 : ℚ) * (fd.size : ℚ)⌋₊ ≤ (FileProperties.truncate u fd).size ∧
      ((FileProperties.truncate u fd).size : ℚ) < 3 / 4 * (fd.size : ℚ) ∧
      (FileProperties.truncate u fd).size = ⌊((1:ℚ)/4 + u * (1/2)) * (fd.size : ℚ)⌋₊ := by
  have hs0 : (0 : ℚ) ≤ (fd.size : ℚ) := Nat.cast_nonneg _
  have hs1 : (0 : ℚ) < (fd.size : ℚ) := by exact_mod_cast hsize
  have hsz : (FileProperties.truncate u fd).size =
      ⌊((1:ℚ)/4 + u * (1/2)) * (fd.size : ℚ)⌋₊ := rfl
  have hr0 : (1 / 4 : ℚ) ≤ (1:ℚ)/4 + u * (1/2) := by nlinarith
  have hr1 : (1:ℚ)/4 + u * (1/2) < 3 / 4 := by nlinarith
  refine ⟨?_, ?_, hsz⟩
  · rw [hsz]
    exact Nat.floor_le_floor (by nlinarith)
  · rw [hsz]
    have hfl : ((⌊((1:ℚ)/4 + u * (1/2)) * (fd.size : ℚ)⌋₊ : Nat) : ℚ) ≤
        ((1:ℚ)/4 + u * (1/2)) * (fd.size : ℚ) :=
      Nat.floor_le (by nlinarith)
    nlinarith

/-- Claim C6 (witness): the amended statement at `u = 0` on a 4-byte
target: `newSize = floor(0.25 * 4) = 1`, and `1 ≤ 1 < 3`. -/
theorem truncate_bounds_witness :
    ⌊(1 / 4 : ℚ) * ((4 : Nat) : ℚ)⌋₊ ≤
        (FileProperties.truncate 0 ⟨"f", 4, [], false⟩).size ∧
      (((FileProperties.truncate 0 ⟨"f", 4, [], false⟩).size : ℚ) <
        3 / 4 * ((4 : Nat) : ℚ)) ∧
      (FileProperties.truncate 0 ⟨"f", 4, [], false⟩).size =
        ⌊((1:ℚ)/4 + 0 * (1/2)) * ((4 : Nat) : ℚ)⌋₊ :=
  truncate_bounds 0 ⟨"f", 4, [], false⟩ le_rfl (by norm_num) (by norm_num)

/-- Claim C7 (counterexample): renaming `d/a` to the fresh name `b` when
`d/b` already exists succeeds with no error — the platform rename silently
replaces the existing destination (its content `[2]` is lost and replaced
by `[1]`); no `RenameConflictError` exists in the code. -/
theorem rename_overwrites_existing :
    (FileProperties.rename "b" ⟨"d/a", 1, [], false⟩
        [("d/a", [1]), ("d/b", [2])]).2.2 = none ∧
      (FileProperties.rename "b" ⟨"d/a", 1, [], false⟩
        [("d/a", [1]), ("d/b", [2])]).1.path = "d/b" ∧
      fsLookup (FileProperties.rename "b" ⟨"d/a", 1, [], false⟩
        [("d/a", [1]), ("d/b", [2])]).2.1 "d/b" = some [1] := by
  decide

/-- Claim C7 (amended): `rename` computes a new random name in the same
parent directory and performs the plain platform rename: when the source
exists it always succeeds, updating `target.path` to the new path and
making the new path resolve to the renamed object — if the destination
already existed it is silently replaced; no `RenameConflictError` is
raised.  `DirectoryProperties.rename` behaves identically on its
record. -/
theorem rename_updates_path (newName : String) (fd : FileData) (fs : FileSystem)
    (v : List Nat) (hsrc : fsLookup fs fd.path = some v)
    (dd : DirData) (fs2 : FileSystem) (w : List Nat)
    (hsrcd : fsLookup fs2 dd.path = some w) :
    (FileProperties.rename newName fd fs).2.2 = none ∧
      (FileProperties.rename newName fd fs).1.path =
        joinPath (dirname fd.path) newName ∧
      fsLookup (FileProperties.rename newName fd fs).2.1
        (joinPath (dirname fd.path) newName) = some v ∧
      (DirectoryProperties.rename newName dd fs2).2.2 = none ∧
      (DirectoryProperties.rename newName dd fs2).1.path =
        joinPath (dirname dd.path) newName := by
  have hR : fsRename fs fd.path (joinPath (dirname fd.path) newName) =
      some ((joinPath (dirname fd.path) newName, v) ::
        List.filter (fun e => !(e.1 == fd.path) &&
          !(e.1 == joinPath (dirname fd.path) newName)) fs) := by
    rw [fsRename, hsrc]
  have hR2 : fsRename fs2 dd.path (joinPath (dirname dd.path) newName) =
      some ((joinPath (dirname dd.path) newName, w) ::
        List.filter (fun e => !(e.1 == dd.path) &&
          !(e.1 == joinPath (dirname dd.path) newName)) fs2) := by
    rw [fsRename, hsrcd]
  refine ⟨?_, ?_, ?_, ?_, ?_⟩
  · rw [FileProperties.rename, hR]
  · rw [FileProperties.rename, hR]
  · rw [FileProperties.rename, hR]
    simp [fsLookup, List.find?]
  · rw [DirectoryProperties.rename, hR2]
  · rw [DirectoryProperties.rename, hR2]

/-- Claim C7 (witness): the amended statement where the source `d/a`
(respectively the directory `d/c`) exists and the fresh name is `x`. -/
theorem rename_updates_path_witness :
    (FileProperties.rename "x" ⟨"d/a", 1, [], false⟩ [("d/a", [5])]).2.2 = none ∧
      (FileProperties.rename "x" ⟨"d/a", 1, [], false⟩ [("d/a", [5])]).1.path =
        joinPath (dirname "d/a") "x" ∧
      fsLookup (FileProperties.rename "x" ⟨"d/a", 1, [], false⟩
        [("d/a", [5])]).2.1 (joinPath (dirname "d/a") "x") = some [5] ∧
      (DirectoryProperties.rename "x" ⟨"d/c"⟩ [("d/c", [])]).2.2 = none ∧
      (DirectoryProperties.rename "x" ⟨"d/c"⟩ [("d/c", [])]).1.path =
        joinPath (dirname "d/c") "x" :=
  rename_updates_path "x" ⟨"d/a", 1, [], false⟩ [("d/a", [5])] [5] (by decide)
    ⟨"d/c"⟩ [("d/c", [])] [] (by decide)

/-- Claim C8 (confirmed): if `verifyNext` is called on the target and then
`write` runs undisturbed (any pattern buffer stream `g`, any capacity
`c > 0`, any initial size including 0, with the record's `size` equal to
the file's length as `init` establishes), the digest captured chunk-by-chunk
during the write equals the digest recomputed from the written file, and
`verify` reports success. -/
theorem verify_roundtrip (g : Nat → List Nat) (c : Nat) (fd : FileData)
    (file : List Nat) (hg : ∀ j, (g j).length = c) (hc : 0 < c)
    (hfile : file.length = fd.size) :
    (FileWriter.write g c (FileWriter.verifyNext fd) file).1.checksum =
      (FileWriter.write g c (FileWriter.verifyNext fd) file).2.1 ∧
      (FileWriter.verify (FileWriter.write g c (FileWriter.verifyNext fd) file).1
        (FileWriter.write g c (FileWriter.verifyNext fd) file).2.1).2 = none := by
  have hlen : (FileWriter.writeLoop g c 0 fd.size).length = fd.size :=
    writeLoop_length g c hg hc 0 fd.size
  have hdrop : file.drop (FileWriter.writeLoop g c 0 fd.size).length = [] := by
    rw [hlen, ← hfile]
    exact List.drop_length file
  have hflag : (FileWriter.verifyNext fd).verifyChecksum = true := rfl
  rw [write_eq, if_pos hflag]
  simp [FileWriter.verifyNext, FileWriter.verify, hdrop]

/-- Claim C8 (witness): the round-trip on a 5-byte target with the `Zero`
fill and a 4-byte buffer. -/
theorem verify_roundtrip_witness :
    (FileWriter.write (fun _ => Zero.fillBuf 4) 4
        (FileWriter.verifyNext ⟨"f", 5, [], false⟩) (List.replicate 5 7)).1.checksum =
      (FileWriter.write (fun _ => Zero.fillBuf 4) 4
        (FileWriter.verifyNext ⟨"f", 5, [], false⟩) (List.replicate 5 7)).2.1 ∧
      (FileWriter.verify
        (FileWriter.write (fun _ => Zero.fillBuf 4) 4
          (FileWriter.verifyNext ⟨"f", 5, [], false⟩) (List.replicate 5 7)).1
        (FileWriter.write (fun _ => Zero.fillBuf 4) 4
          (FileWriter.verifyNext ⟨"f", 5, [], false⟩) (List.replicate 5 7)).2.1).2 =
      none :=
  verify_roundtrip (fun _ => Zero.fillBuf 4) 4 ⟨"f", 5, [], false⟩
    (List.replicate 5 7) (fun _ => rfl) (by decide) rfl

/-- Claim C9 (confirmed): the outcome of a deterministic pattern-class
`write` call — the returned record, file content, and error — depends only
on the class invoked and the arguments of that invocation, never on the
shared class state left behind by earlier writes: `Byte.write` and
`ByteArray.write` install their fill closure from their own argument
before the streaming starts, so whatever a preceding write stored in the
class state (the only cross-call channel) cannot influence the result. -/
theorem pattern_state_independent (call : PatternCall) (c : Nat)
    (st st' : ClassState) (fd : FileData) (file : List Nat) :
    (runCall call c st fd file).2 = (runCall call c st' fd file).2 := by
  cases call <;> rfl

/-- Claim C10 (confirmed): `verify` mutates none of the record's fields —
`path`, `size`, `checksum` and `verifyChecksum` are unchanged (the
verification digest goes into a fresh local accumulator) — so `verify` can
be invoked again on the returned record with the same captured digest and
yields the same result. -/
theorem verify_leaves_record_unchanged (fd : FileData) (file : List Nat) :
    (FileWriter.verify fd file).1.path = fd.path ∧
      (FileWriter.verify fd file).1.size = fd.size ∧
      (FileWriter.verify fd file).1.checksum = fd.checksum ∧
      (FileWriter.verify fd file).1.verifyChecksum = fd.verifyChecksum ∧
      FileWriter.verify (FileWriter.verify fd file).1 file =
        FileWriter.verify fd file := by
  by_cases h : fd.checksum = file <;> simp [FileWriter.verify, h]

end RemoveForever
